import Mathlib

/-!
Verification of the Availability Resolution & Backup Substitution Engine of the
target-redcircle-api repository.

The TypeScript source is shallowly embedded: JavaScript `Map` objects become
association lists where later writes shadow earlier entries, optional values
become `Option`, JavaScript truthiness of strings/objects is made explicit, and
asynchronous upstream HTTP calls become an explicit function from a TCIN to
either a response or a transport-level error.  The `Number(x).toString()`
canonicalisation used by the source for flexible map keys is modelled on the
fragment of the JavaScript `Number` grammar actually exercised by the service
(non-negative decimal digit strings; every other string maps to NaN, rendered
"NaN").
-/

/-- A JavaScript `Map` with string keys, embedded as an association list.
`set` conses, so the most recent write for a key is found first. -/
abbrev JsMap (V : Type) := List (String × V)

/-- JavaScript `map.set(k, v)`. -/
def mapSet {V : Type} (m : JsMap V) (k : String) (v : V) : JsMap V :=
  (k, v) :: m

/-- JavaScript `map.get(k)`: the most recent value written for `k`, if any. -/
def mapGet {V : Type} (m : JsMap V) (k : String) : Option V :=
  (m.find? (fun p => p.1 == k)).map Prod.snd

/-- JavaScript `a || b` on object-or-undefined values: objects are truthy, so
the first operand wins whenever it is defined. -/
def jsOrOpt {V : Type} : Option V → Option V → Option V
  | some v, _ => some v
  | none, b => b

/-- JavaScript `s || fallback` on string-or-undefined values: the empty string
is falsy, so it falls through to the fallback just as `undefined` does. -/
def jsOrString (opt : Option String) (fallback : String) : String :=
  match opt with
  | some s => if s = "" then fallback else s
  | none => fallback

/-- JavaScript `!isNaN(Number(s))` on the modelled fragment: `Number` parses a
string of decimal digits (the empty string parses to 0). -/
def jsIsNumeric (s : String) : Bool :=
  s.data.all Char.isDigit

/-- Numeric value of a decimal digit string. -/
def digitsToNat (s : String) : Nat :=
  s.data.foldl (fun n c => 10 * n + (c.toNat - '0'.toNat)) 0

/-- JavaScript `Number(s).toString()` on the modelled fragment: digit strings
re-render without leading zeros, everything else becomes NaN, whose string
form is "NaN". -/
def jsNumberToString (s : String) : String :=
  if jsIsNumeric s then Nat.repr (digitsToNat s) else "NaN"

/-- src/types: `ProductAvailability`, the normalised per-identifier record. -/
structure ProductAvailability where
  productId : String
  inStock : Bool
  availableQuantity : Nat
  storeId : Option String := none
  storeName : Option String := none
  distance : Option Int := none
  offerId : Option String := none
  offerType : Option String := none
deriving DecidableEq, Repr

/-- src/types: one store row of a RedCircle store-stock response.  The unused
`Address` payload is omitted; the service never reads it. -/
structure TargetStoreStock where
  Position : Nat
  Store_name : String
  Store_id : String
  In_stock : Bool
  Stock_level : Nat
  Distance : Int
deriving DecidableEq, Repr

/-- src/types: `TargetStoreStockResponse`.  `request_info` is never consulted
by the availability pipeline and is omitted. -/
structure TargetStoreStockResponse where
  Store_stock_results : Option (List TargetStoreStock)
deriving DecidableEq, Repr

/-- An error code as carried by `ApiError.code` and `ProductError.code`,
which the source types as `string | number`. -/
inductive ErrCode where
  | str : String → ErrCode
  | num : Nat → ErrCode
deriving DecidableEq, Repr

/-- src/types: per-identifier `ProductError` attached to a batch result. -/
structure ProductError where
  productId : String
  error : String
  code : Option ErrCode
deriving DecidableEq, Repr

/-- src/types: `ApiError` thrown by the Target API client (`details` payload
omitted; only `message` and `code` are consulted downstream). -/
structure ApiError where
  message : String
  code : ErrCode
deriving DecidableEq, Repr

/-- The shape of an axios failure as inspected by `handleApiError`: whether it
is an axios error at all, the optional HTTP status, the optional
`data.error.code` field of the response body, and the error message. -/
structure AxiosErrorShape where
  isAxiosError : Bool
  status : Option Nat
  dataErrorCode : Option String
  message : String
deriving DecidableEq, Repr

/-- src/types: `StockCheckParams`. -/
structure StockCheckParams where
  productIds : List String
  zipCode : String
  storeId : Option String := none
deriving DecidableEq, Repr

/-- src/types: `StockCheckResult`. -/
structure StockCheckResult where
  availabilityMap : JsMap ProductAvailability
  errors : List ProductError
deriving DecidableEq, Repr

/-- src/types: `BackupGroup`. -/
structure BackupGroup where
  primaryId : String
  backupIds : List String
deriving DecidableEq, Repr

/-- src/types: `SelectedProduct` (`quantity` is never set by the selector). -/
structure SelectedProduct where
  productId : String
  quantity : Option Nat := none
  availability : ProductAvailability
deriving DecidableEq, Repr

/-- src/types: the `reason` field of a `BackupProductUsed` record. -/
inductive SubstitutionReason where
  | OUT_OF_STOCK
  | PRIMARY_UNUSABLE
deriving DecidableEq, Repr

/-- src/types: `BackupProductUsed`, the substitution audit record. -/
structure BackupProductUsed where
  originalId : String
  replacementId : String
  reason : SubstitutionReason
deriving DecidableEq, Repr

/-- src/types: `ProductSelectionResult`. -/
structure ProductSelectionResult where
  selectedProducts : List SelectedProduct
  backupProductsUsed : List BackupProductUsed
  unavailableProducts : List String
deriving DecidableEq, Repr

/-- src/types: the `cartUrlType` discriminator of the response. -/
inductive CartUrlType where
  | pdp
  | longLink
  | custom
deriving DecidableEq, Repr

/-- The string rendering of a `CartUrlType`, as it appears in the JSON
response. -/
def CartUrlType.render : CartUrlType → String
  | .pdp => "pdp"
  | .longLink => "longLink"
  | .custom => "custom"

/-- src/types: `CartUrlOptions` (accepted but, for Target, only `mode` is ever
read, to echo it back in the summary). -/
structure CartUrlOptions where
  mode : Option String := none
  fallbackMode : Option String := none
  includeStoreIdOpt : Option String := none
  preferItemsForWalmart : Option Bool := none
  preferOffersForMarketplace : Option Bool := none
deriving DecidableEq, Repr

/-- src/types: `SmartSelectionRequest`. -/
structure SmartSelectionRequest where
  shortLink : String
  longLink : String
  backups : List BackupGroup
  zipCode : String
  storeId : Option String := none
  customUrl : Option String := none
  allowPdp : Option Bool := none
  cartUrlOptions : Option CartUrlOptions := none
deriving DecidableEq, Repr

/-- src/types: `CartOptionsSummary`. -/
structure CartOptionsSummary where
  mode : String
  includeStoreId : String
  fallbackApplied : Bool
  finalType : String
deriving DecidableEq, Repr

/-- src/types: `SmartSelectionResponse`. -/
structure SmartSelectionResponse where
  redirectUrl : String
  backupsUsed : Bool
  backupProducts : List BackupProductUsed
  allProductsUnavailable : Bool
  cartUrlType : CartUrlType
  storeIdAttached : Option String
  cartOptionsSummary : CartOptionsSummary
deriving DecidableEq, Repr

/-- utils/cache: the stock-cache default TTL.  The source reads
`process.env.CACHE_TTL_SECONDS || '300'`; the environment default of 300
seconds is modelled. -/
def STOCK_CACHE_TTL : Nat := 300

/-- utils/cache: `generateProductStockCacheKey`.  The template literal is
`stock:` zip `:` (`storeId || 'undefined'`) `:` tcin, so an absent or empty
store id renders as the sentinel "undefined". -/
def generateProductStockCacheKey (zipCode : String) (tcin : String)
    (storeId : Option String) : String :=
  "stock:" ++ zipCode ++ ":" ++ jsOrString storeId "undefined" ++ ":" ++ tcin

/-- Modelled from the spec: a stored cache entry of the node-cache dependency,
which is not part of this repository.  Spec section 3 (CacheEntry): value,
store time and ttl in seconds. -/
structure CacheEntry (T : Type) where
  value : T
  storedAt : Nat
  ttlSeconds : Nat
deriving DecidableEq, Repr

/-- Modelled from the spec: a node-cache instance, which is not part of this
repository: a namespace default TTL (`stdTTL`) plus the stored entries.  The
`checkperiod` eviction sweep only reclaims memory and is not modelled; logical
absence is decided at read time. -/
structure NodeCache (T : Type) where
  stdTTL : Nat
  entries : List (String × CacheEntry T)
deriving DecidableEq, Repr

/-- Modelled from the spec: node-cache `set`.  When no ttl is passed the
namespace default `stdTTL` is used; an explicit ttl of 0 means never expire
(documented in the source comment inside `setCachedValue`).  The clock is an
explicit `now` in seconds. -/
def ncSet {T : Type} (cache : NodeCache T) (key : String) (value : T)
    (ttl : Option Nat) (now : Nat) : NodeCache T :=
  { cache with entries := (key, ⟨value, now, ttl.getD cache.stdTTL⟩) :: cache.entries }

/-- Modelled from the spec: node-cache `get`.  An entry is logically absent
once `now - storedAt > ttlSeconds` (spec section 3), except that ttl 0 never
expires. -/
def ncGet {T : Type} (cache : NodeCache T) (key : String) (now : Nat) : Option T :=
  match cache.entries.find? (fun p => p.1 == key) with
  | some p => if p.2.ttlSeconds = 0 ∨ now - p.2.storedAt ≤ p.2.ttlSeconds then
      some p.2.value else none
  | none => none

/-- utils/cache: `setCachedValue`.  Only passes a ttl to the cache when one was
explicitly provided, so an omitted ttl falls through to the namespace default
rather than being coerced to 0 (never expire). -/
def setCachedValue {T : Type} (cache : NodeCache T) (key : String) (value : T)
    (ttl : Option Nat) (now : Nat) : NodeCache T :=
  match ttl with
  | some t => ncSet cache key value (some t) now
  | none => ncSet cache key value none now

/-- utils/cache: `getCachedValue`, a typed wrapper around node-cache `get`. -/
def getCachedValue {T : Type} (cache : NodeCache T) (key : String) (now : Nat) :
    Option T :=
  ncGet cache key now

/-- utils/cache: the stock availability cache instance, with the default
5-minute TTL and initially no entries. -/
def stockCache : NodeCache TargetStoreStockResponse :=
  ⟨STOCK_CACHE_TTL, []⟩

/-- services/target/api: `handleApiError`, the translation of an axios failure
into a typed `ApiError`.  Mirrors the branch order of the source: 404 or
PRODUCT_NOT_FOUND, then 429 or RATE_LIMIT_EXCEEDED, then 401/403, then the raw
status (`status || 'NETWORK_ERROR'`, so a missing or zero status renders as
NETWORK_ERROR), and finally UNKNOWN_ERROR for non-axios values. -/
def handleApiError (error : AxiosErrorShape) (context : Option String) : ApiError :=
  if error.isAxiosError then
    if error.status = some 404 ∨ error.dataErrorCode = some "PRODUCT_NOT_FOUND" then
      ⟨"Product not found" ++ (match context with | some c => ": " ++ c | none => ""),
        .str "PRODUCT_NOT_FOUND"⟩
    else if error.status = some 429 ∨ error.dataErrorCode = some "RATE_LIMIT_EXCEEDED" then
      ⟨"Rate limit exceeded", .str "RATE_LIMIT_EXCEEDED"⟩
    else if error.status = some 401 ∨ error.status = some 403 then
      ⟨"Invalid API key or unauthorized", .str "UNAUTHORIZED"⟩
    else
      ⟨error.message,
        match error.status with
        | some s => if s = 0 then .str "NETWORK_ERROR" else .num s
        | none => .str "NETWORK_ERROR"⟩
  else
    ⟨"Unknown error occurred", .str "UNKNOWN_ERROR"⟩

/-- The upstream transport for a fixed location: each TCIN either yields a
store-stock response or fails with an axios-level error.  The zip code and
store id parameters of the HTTP call are fixed inside this function, mirroring
a single batch resolution. -/
def Upstream : Type :=
  String → Except AxiosErrorShape TargetStoreStockResponse

/-- services/target/api: `checkStoreStock` for one TCIN, on the uncached call
path (the TTL cache consulted first by the source is modelled separately and
does not change any per-call outcome proved below): a transport failure is
rethrown as the `ApiError` built by `handleApiError` with the TCIN context. -/
def checkStoreStock (raw : Upstream) (tcin : String) :
    Except ApiError TargetStoreStockResponse :=
  match raw tcin with
  | .ok r => .ok r
  | .error e => .error (handleApiError e (some ("TCIN " ++ tcin)))

/-- services/target/api: the accumulation step of `checkBulkStoreStock`.  A
successful lookup is stored under the raw TCIN, under `tcin.toString()` (the
same string key) and, when the TCIN is numeric, under its
`Number(tcin).toString()` form; a failed lookup stores nothing. -/
def bulkStep (stockMap : JsMap TargetStoreStockResponse)
    (r : String × Except ApiError TargetStoreStockResponse) :
    JsMap TargetStoreStockResponse :=
  match r.2 with
  | .ok stock =>
    let m1 := mapSet stockMap r.1 stock
    let m2 := mapSet m1 r.1 stock
    if jsIsNumeric r.1 then mapSet m2 (jsNumberToString r.1) stock else m2
  | .error _ => stockMap

/-- services/target/api: `checkBulkStoreStock`.  All per-TCIN calls settle
independently (`Promise.all` over promises whose rejections are caught), and
only the successes are entered into the result map. -/
def checkBulkStoreStock (raw : Upstream) (tcins : List String) :
    JsMap TargetStoreStockResponse :=
  (tcins.map (fun tcin => (tcin, checkStoreStock raw tcin))).foldl bulkStep []

/-- services/target/api: `generateProductUrl`. -/
def generateProductUrl (tcin : String) : String :=
  "https://www.target.com/p/-/A-" ++ tcin

/-- services/stock/availability: `setAvailabilityForAllKeyTypes`.  Stores the
record under the original key, under `String(productId)` (the same string key)
and, when the identifier is numeric, under its canonical numeric-string
form. -/
def setAvailabilityForAllKeyTypes (m : JsMap ProductAvailability)
    (productId : String) (availability : ProductAvailability) :
    JsMap ProductAvailability :=
  let m1 := mapSet m productId availability
  let m2 := mapSet m1 productId availability
  if jsIsNumeric productId then
    mapSet m2 (jsNumberToString productId) availability
  else m2

/-- services/stock/availability: `isProductAvailable`, the available-and-usable
predicate: the record exists, is in stock, and has quantity above zero. -/
def isProductAvailable : Option ProductAvailability → Bool
  | none => false
  | some a => a.inStock && decide (a.availableQuantity > 0)

/-- services/stock/availability: `getAvailability`.  Tries the original key,
`String(productId)` (the same string key) and the canonical numeric-string
form, taking the first hit. -/
def getAvailability (availabilityMap : JsMap ProductAvailability)
    (productId : String) : Option ProductAvailability :=
  jsOrOpt (mapGet availabilityMap productId)
    (jsOrOpt (mapGet availabilityMap productId)
      (mapGet availabilityMap (jsNumberToString productId)))

/-- services/stock/availability: `selectBestStore`.  Priority: the
user-specified store when provided (and non-empty, by JavaScript truthiness)
and present; else the first in-stock store with positive stock level; else the
first store; `undefined` when the list is empty. -/
def selectBestStore (stores : List TargetStoreStock)
    (preferredStoreId : Option String) : Option TargetStoreStock :=
  match stores with
  | [] => none
  | s0 :: rest =>
    let userStore : Option TargetStoreStock :=
      match preferredStoreId with
      | some pid =>
        if pid = "" then none
        else (s0 :: rest).find? (fun s => s.Store_id == pid)
      | none => none
    match userStore with
    | some u => some u
    | none =>
      match (s0 :: rest).find? (fun s => s.In_stock && decide (s.Stock_level > 0)) with
      | some s => some s
      | none => some s0

/-- services/stock/availability: the body of the per-product `forEach` inside
`checkBatchAvailability`, factored as a function of the bulk stock map: the
availability record written for the identifier, plus the per-identifier error
pushed, if any.  A missing or store-less response yields the unavailable
record with a NO_STOCK_DATA or NO_STORES error; otherwise the selected store
is normalised into a full record (`Stock_level || 0` is the identity on
naturals). -/
def availabilityForProduct (stockResults : JsMap TargetStoreStockResponse)
    (storeId : Option String) (productId : String) :
    ProductAvailability × Option ProductError :=
  let stockData :=
    jsOrOpt (mapGet stockResults productId)
      (jsOrOpt (mapGet stockResults productId)
        (mapGet stockResults (jsNumberToString productId)))
  match stockData with
  | none =>
    (⟨productId, false, 0, none, none, none, none, none⟩,
      some ⟨productId, "No stock data available", some (.str "NO_STOCK_DATA")⟩)
  | some sd =>
    match sd.Store_stock_results with
    | none =>
      (⟨productId, false, 0, none, none, none, none, none⟩,
        some ⟨productId, "No stock data available", some (.str "NO_STOCK_DATA")⟩)
    | some stores =>
      match selectBestStore stores storeId with
      | none =>
        (⟨productId, false, 0, none, none, none, none, none⟩,
          some ⟨productId, "No stores found", some (.str "NO_STORES")⟩)
      | some st =>
        (⟨productId, st.In_stock && decide (st.Stock_level > 0), st.Stock_level,
            some st.Store_id, some st.Store_name, some st.Distance,
            none, some "TARGET_PRODUCT"⟩,
          none)

/-- services/stock/availability: the accumulation step over product ids inside
`checkBatchAvailability`: write the record under all key types and append the
error, if one was produced. -/
def batchStep (stockResults : JsMap TargetStoreStockResponse)
    (storeId : Option String)
    (acc : JsMap ProductAvailability × List ProductError) (productId : String) :
    JsMap ProductAvailability × List ProductError :=
  let r := availabilityForProduct stockResults storeId productId
  (setAvailabilityForAllKeyTypes acc.1 productId r.1, acc.2 ++ r.2.toList)

/-- services/stock/availability: the successful body of
`checkBatchAvailability`: one bulk call, then per-product normalisation. -/
def checkBatchAvailabilityCore (raw : Upstream) (params : StockCheckParams) :
    StockCheckResult :=
  let stockResults := checkBulkStoreStock raw params.productIds
  let out := params.productIds.foldl (batchStep stockResults params.storeId) ([], [])
  ⟨out.1, out.2⟩

/-- services/stock/availability: `checkBatchAvailability`.  The catch-all of
the source rethrows only when the bulk call itself rejects; since
`checkBulkStoreStock` settles every per-TCIN failure internally, the embedded
function always returns successfully. -/
def checkBatchAvailability (raw : Upstream) (params : StockCheckParams) :
    Except String StockCheckResult :=
  .ok (checkBatchAvailabilityCore raw params)

/-- services/stock/product-selector: the backup loop of
`performProductSelection`: walk `backupIds` in order and return the first one
whose availability record satisfies the usable predicate, together with that
record; short-circuits at the first hit. -/
def findAvailableBackup (m : JsMap ProductAvailability) :
    List String → Option (String × ProductAvailability)
  | [] => none
  | backupId :: rest =>
    match getAvailability m backupId with
    | some a =>
      if isProductAvailable (some a) then some (backupId, a)
      else findAvailableBackup m rest
    | none => findAvailableBackup m rest

/-- services/stock/product-selector: the per-group body of
`performProductSelection`: the selected product, the substitution record and
the unavailable entry this group contributes (each optional).  A usable
primary is selected directly; otherwise the first usable backup is selected
with a substitution record whose reason depends on whether the primary had a
resolvable record; otherwise the group is unavailable. -/
def processGroup (m : JsMap ProductAvailability) (group : BackupGroup) :
    Option SelectedProduct × Option BackupProductUsed × Option String :=
  let primaryAvailability := getAvailability m group.primaryId
  match primaryAvailability, isProductAvailable primaryAvailability with
  | some a, true =>
    (some ⟨group.primaryId, none, a⟩, none, none)
  | _, _ =>
    match findAvailableBackup m group.backupIds with
    | some hit =>
      (some ⟨hit.1, none, hit.2⟩,
        some ⟨group.primaryId, hit.1,
          if primaryAvailability.isSome then .OUT_OF_STOCK else .PRIMARY_UNUSABLE⟩,
        none)
    | none => (none, none, some group.primaryId)

/-- services/stock/product-selector: one iteration of the `forEach` of
`performProductSelection`: push whatever the group contributed. -/
def selectionStep (availabilityMap : JsMap ProductAvailability)
    (acc : ProductSelectionResult) (group : BackupGroup) : ProductSelectionResult :=
  let r := processGroup availabilityMap group
  ⟨acc.selectedProducts ++ r.1.toList,
    acc.backupProductsUsed ++ r.2.1.toList,
    acc.unavailableProducts ++ r.2.2.toList⟩

/-- services/stock/product-selector: `performProductSelection`, the fold of
`processGroup` over the groups in input order, with push-style
accumulation. -/
def performProductSelection (backups : List BackupGroup)
    (availabilityMap : JsMap ProductAvailability) : ProductSelectionResult :=
  backups.foldl (selectionStep availabilityMap) ⟨[], [], []⟩

/-- services/stock/product-selector: `buildRedirectUrl`.  No selection falls
back to `customUrl || longLink`; a single selection with `allowPdp !== false`
goes to the product page; every other case falls back. -/
def buildRedirectUrl (selectionResult : ProductSelectionResult)
    (longLink : String) (customUrl : Option String) (allowPdp : Option Bool) :
    String :=
  let selectedProducts := selectionResult.selectedProducts
  if selectedProducts.length = 0 then
    jsOrString customUrl longLink
  else if selectedProducts.length = 1 ∧ allowPdp ≠ some false then
    match selectedProducts.head? with
    | some p => generateProductUrl p.productId
    | none => jsOrString customUrl longLink
  else if selectedProducts.length > 1 then
    jsOrString customUrl longLink
  else
    jsOrString customUrl longLink

/-- services/stock/product-selector: `determineCartUrlType`.  Mirrors the
branch order of the source; `customUrl ? ... : ...` is JavaScript truthiness,
so an empty custom url counts as absent. -/
def determineCartUrlType (selectionResult : ProductSelectionResult)
    (customUrl : Option String) (allowPdp : Option Bool) : CartUrlType :=
  if selectionResult.selectedProducts.length = 0 then
    match customUrl with
    | some c => if c = "" then .longLink else .custom
    | none => .longLink
  else if selectionResult.selectedProducts.length = 1 ∧ allowPdp ≠ some false then
    .pdp
  else
    match customUrl with
    | some c => if c = "" then .longLink else .custom
    | none => .longLink

/-- services/stock/product-selector: `selectAvailableProducts`, steps 3 to 6.
The availability map produced by the asynchronous step 2 is passed as an
argument; selection, redirect construction and response assembly follow the
source, including `didFallback := finalCartUrlType !== 'pdp'` and the fixed
`includeStoreId: 'never'` of the summary. -/
def selectAvailableProducts (request : SmartSelectionRequest)
    (availabilityMap : JsMap ProductAvailability) : SmartSelectionResponse :=
  let selectionResult := performProductSelection request.backups availabilityMap
  let redirectUrl :=
    buildRedirectUrl selectionResult request.longLink request.customUrl request.allowPdp
  let finalCartUrlType :=
    determineCartUrlType selectionResult request.customUrl request.allowPdp
  let requestedMode := jsOrString (request.cartUrlOptions.bind (fun o => o.mode)) "auto"
  let didFallback := decide (finalCartUrlType ≠ CartUrlType.pdp)
  { redirectUrl := redirectUrl
    backupsUsed := decide (selectionResult.backupProductsUsed.length > 0)
    backupProducts := selectionResult.backupProductsUsed
    allProductsUnavailable := decide (selectionResult.selectedProducts.length = 0)
    cartUrlType := finalCartUrlType
    storeIdAttached := none
    cartOptionsSummary :=
      ⟨requestedMode, "never", didFallback, finalCartUrlType.render⟩ }

/-- An identifier already in canonical numeric-string form: it is a digit
string and `Number(id).toString()` re-renders it unchanged (true of the
8-digit TCINs this service handles). -/
def canonicalId (s : String) : Prop :=
  jsIsNumeric s = true ∧ jsNumberToString s = s

instance (s : String) : Decidable (canonicalId s) := by
  unfold canonicalId; infer_instance

/-- Spec side, written from the amended claim on the Redirect URL Builder: the
fallback target is the custom url when present and non-empty, else the long
link. -/
def fallbackTargetSpec (longLink : String) (customUrl : Option String) : String :=
  match customUrl with
  | some c => if c ≠ "" then c else longLink
  | none => longLink

/-- Spec side, written from the amended claim on the Redirect URL Builder: the
fallback type is custom when the custom url is present and non-empty, else
longLink. -/
def fallbackTypeSpec (customUrl : Option String) : CartUrlType :=
  match customUrl with
  | some c => if c ≠ "" then CartUrlType.custom else CartUrlType.longLink
  | none => CartUrlType.longLink

/-- Spec side, written from the amended claim on the Redirect URL Builder: no
selection falls back; exactly one selection with `allowPdp` not explicitly
false goes to that identifier's product detail page; otherwise fall back
exactly as in the empty case. -/
def redirectTargetSpec (selectionResult : ProductSelectionResult)
    (longLink : String) (customUrl : Option String) (allowPdp : Option Bool) :
    String :=
  match selectionResult.selectedProducts with
  | [] => fallbackTargetSpec longLink customUrl
  | [p] =>
    if allowPdp ≠ some false then generateProductUrl p.productId
    else fallbackTargetSpec longLink customUrl
  | _ => fallbackTargetSpec longLink customUrl

/-- Spec side, written from the amended claim on the Redirect URL Builder: the
type is pdp exactly when one product was selected and `allowPdp` is not
explicitly false, else the fallback type. -/
def cartUrlTypeSpec (selectionResult : ProductSelectionResult)
    (customUrl : Option String) (allowPdp : Option Bool) : CartUrlType :=
  match selectionResult.selectedProducts with
  | [] => fallbackTypeSpec customUrl
  | [_] =>
    if allowPdp ≠ some false then CartUrlType.pdp
    else fallbackTypeSpec customUrl
  | _ => fallbackTypeSpec customUrl

/-- A concrete in-stock store row used by the witnesses below. -/
def storeRowW : TargetStoreStock :=
  ⟨1, "Lincoln Mall", "1771", true, 5, 2⟩

/-- A concrete successful store-stock response used by the witnesses below. -/
def stockRespW : TargetStoreStockResponse :=
  ⟨some [storeRowW]⟩

/-- A concrete axios 404 failure used by the witnesses below. -/
def notFoundAxiosError : AxiosErrorShape :=
  ⟨true, some 404, none, "Request failed with status code 404"⟩

/-- A concrete axios 429 failure used below. -/
def rateLimitedAxiosError : AxiosErrorShape :=
  ⟨true, some 429, none, "Request failed with status code 429"⟩

/-- A concrete upstream that fails with 404 for TCIN 22222222 and succeeds for
every other TCIN. -/
def rawFailing : Upstream :=
  fun tcin => if tcin = "22222222" then .error notFoundAxiosError else .ok stockRespW

/-- A concrete upstream that succeeds for every TCIN. -/
def rawHealthy : Upstream :=
  fun _ => .ok stockRespW

/-- A concrete upstream that fails with 429 for every TCIN. -/
def rawRateLimited : Upstream :=
  fun _ => .error rateLimitedAxiosError

/-- A concrete availability record used by the witnesses below. -/
def availW : ProductAvailability :=
  ⟨"11111111", true, 3, none, none, none, none, none⟩

/-- A concrete availability map holding one usable record, used by the
witnesses below. -/
def availMapW : JsMap ProductAvailability :=
  [("11111111", availW)]

/- ======================================================================== -/
/- Helper lemmas                                                            -/
/- ======================================================================== -/

theorem mapGet_mapSet_self {V : Type} (m : JsMap V) (k : String) (v : V) :
    mapGet (mapSet m k v) k = some v := by
  unfold mapGet mapSet
  rw [List.find?_cons_of_pos _ (by simp)]
  rfl

theorem mapGet_mapSet_ne {V : Type} (m : JsMap V) (k k' : String) (v : V)
    (h : k' ≠ k) : mapGet (mapSet m k v) k' = mapGet m k' := by
  unfold mapGet mapSet
  rw [List.find?_cons_of_neg _ (by simpa using Ne.symm h)]

theorem isProductAvailable_isSome (o : Option ProductAvailability)
    (h : isProductAvailable o = true) : ∃ a, o = some a := by
  cases o with
  | none => simp [isProductAvailable] at h
  | some a => exact ⟨a, rfl⟩

theorem findAvailableBackup_map_fst (m : JsMap ProductAvailability)
    (l : List String) :
    (findAvailableBackup m l).map Prod.fst =
      l.find? (fun b => isProductAvailable (getAvailability m b)) := by
  induction l with
  | nil => rfl
  | cons b rest ih =>
    cases h : getAvailability m b with
    | none =>
      rw [List.find?_cons_of_neg _ (by simp [h, isProductAvailable])]
      simpa [findAvailableBackup, h] using ih
    | some a =>
      by_cases hp : isProductAvailable (some a) = true
      · rw [List.find?_cons_of_pos _ (by simp [h, hp])]
        simp [findAvailableBackup, h, hp]
      · rw [List.find?_cons_of_neg _ (by simp [h, hp])]
        simpa [findAvailableBackup, h, hp] using ih

theorem findAvailableBackup_cons_of_usable (m : JsMap ProductAvailability)
    (b : String) (rest : List String)
    (hb : isProductAvailable (getAvailability m b) = true) :
    ∃ a, getAvailability m b = some a ∧
      findAvailableBackup m (b :: rest) = some (b, a) := by
  obtain ⟨a, ha⟩ := isProductAvailable_isSome _ hb
  refine ⟨a, ha, ?_⟩
  have hp : isProductAvailable (some a) = true := ha ▸ hb
  simp [findAvailableBackup, ha, hp]

theorem processGroup_of_not_usable (m : JsMap ProductAvailability)
    (g : BackupGroup)
    (h : isProductAvailable (getAvailability m g.primaryId) = false) :
    processGroup m g =
      match findAvailableBackup m g.backupIds with
      | some hit =>
        (some ⟨hit.1, none, hit.2⟩,
          some ⟨g.primaryId, hit.1,
            if (getAvailability m g.primaryId).isSome then
              SubstitutionReason.OUT_OF_STOCK
            else SubstitutionReason.PRIMARY_UNUSABLE⟩,
          none)
      | none => (none, none, some g.primaryId) := by
  cases hpa : getAvailability m g.primaryId with
  | none => simp [processGroup, hpa]
  | some a =>
    have hp : isProductAvailable (some a) = false := hpa ▸ h
    simp [processGroup, hpa, hp]

theorem processGroup_of_usable (m : JsMap ProductAvailability) (g : BackupGroup)
    (a : ProductAvailability) (hpa : getAvailability m g.primaryId = some a)
    (hp : isProductAvailable (some a) = true) :
    processGroup m g = (some ⟨g.primaryId, none, a⟩, none, none) := by
  simp [processGroup, hpa, hp]

theorem processGroup_sum_one (m : JsMap ProductAvailability) (g : BackupGroup) :
    (processGroup m g).1.toList.length + (processGroup m g).2.2.toList.length
      = 1 := by
  by_cases h : isProductAvailable (getAvailability m g.primaryId) = true
  · obtain ⟨a, ha⟩ := isProductAvailable_isSome _ h
    rw [processGroup_of_usable m g a ha (ha ▸ h)]
    simp
  · rw [processGroup_of_not_usable m g (by simpa using h)]
    cases hf : findAvailableBackup m g.backupIds <;> simp

theorem selection_foldl_eq (m : JsMap ProductAvailability)
    (backups : List BackupGroup) :
    ∀ acc : ProductSelectionResult,
      backups.foldl (selectionStep m) acc =
        ⟨acc.selectedProducts
            ++ (backups.map (fun g => (processGroup m g).1.toList)).flatten,
          acc.backupProductsUsed
            ++ (backups.map (fun g => (processGroup m g).2.1.toList)).flatten,
          acc.unavailableProducts
            ++ (backups.map (fun g => (processGroup m g).2.2.toList)).flatten⟩ := by
  induction backups with
  | nil => intro acc; simp
  | cons g rest ih =>
    intro acc
    rw [List.foldl_cons, ih]
    simp [selectionStep, List.append_assoc]

theorem performProductSelection_eq (backups : List BackupGroup)
    (m : JsMap ProductAvailability) :
    performProductSelection backups m =
      ⟨(backups.map (fun g => (processGroup m g).1.toList)).flatten,
        (backups.map (fun g => (processGroup m g).2.1.toList)).flatten,
        (backups.map (fun g => (processGroup m g).2.2.toList)).flatten⟩ := by
  unfold performProductSelection
  rw [selection_foldl_eq]
  simp

/- ======================================================================== -/
/- Claim theorems                                                           -/
/- ======================================================================== -/

/-- C1: for every list of BackupGroups and every availability map, the result
of `performProductSelection` satisfies `selectedProducts.length +
unavailableProducts.length = backups.length`, the selected products are
exactly the concatenation of the per-group contributions, and each group
contributes at most one selected entry. -/
theorem performProductSelection_counts (backups : List BackupGroup)
    (m : JsMap ProductAvailability) :
    (performProductSelection backups m).selectedProducts.length
        + (performProductSelection backups m).unavailableProducts.length
      = backups.length
    ∧ (performProductSelection backups m).selectedProducts
        = (backups.map (fun g => (processGroup m g).1.toList)).flatten
    ∧ ∀ g : BackupGroup, (processGroup m g).1.toList.length ≤ 1 := by
  refine ⟨?_, ?_, ?_⟩
  · rw [performProductSelection_eq]
    simp only
    induction backups with
    | nil => rfl
    | cons g rest ih =>
      simp only [List.map_cons, List.flatten_cons, List.length_append,
        List.length_cons]
      have h1 := processGroup_sum_one m g
      omega
  · rw [performProductSelection_eq]
  · intro g
    cases (processGroup m g).1 <;> simp

/-- C2: when the primary of a group is not available-and-usable, the group's
selected product is exactly the first backup in `backupIds` order whose
record satisfies the availability predicate, and the scan short-circuits: if
the first backup is available, the remaining backups (in particular the
second one, whether or not any record exists for it) never influence the
result. -/
theorem processGroup_first_available_backup (m : JsMap ProductAvailability)
    (p : String) (l : List String)
    (h : isProductAvailable (getAvailability m p) = false) :
    ((processGroup m ⟨p, l⟩).1).map SelectedProduct.productId
        = l.find? (fun b => isProductAvailable (getAvailability m b))
      ∧ ∀ (b : String) (rest : List String),
          isProductAvailable (getAvailability m b) = true →
            processGroup m ⟨p, b :: rest⟩ = processGroup m ⟨p, [b]⟩ := by
  constructor
  · rw [processGroup_of_not_usable m ⟨p, l⟩ h, ← findAvailableBackup_map_fst]
    cases hf : findAvailableBackup m l with
    | none => simp
    | some hit => simp
  · intro b rest hb
    obtain ⟨a, ha, hfab⟩ := findAvailableBackup_cons_of_usable m b rest hb
    obtain ⟨a', ha', hfab1⟩ := findAvailableBackup_cons_of_usable m b [] hb
    rw [ha] at ha'
    cases ha'
    rw [processGroup_of_not_usable m ⟨p, b :: rest⟩ h,
      processGroup_of_not_usable m ⟨p, [b]⟩ h]
    simp [hfab, hfab1]

/-- Witness for C2 at a concrete map and group: the primary has no record, the
first backup is out of the map, the second backup is usable. -/
theorem processGroup_first_available_backup_witness :
    ((processGroup availMapW
          ⟨"99999999", ["00000000", "11111111", "22222222"]⟩).1).map
        SelectedProduct.productId
      = ["00000000", "11111111", "22222222"].find?
          (fun b => isProductAvailable (getAvailability availMapW b))
    ∧ processGroup availMapW ⟨"99999999", ["11111111", "22222222"]⟩
        = processGroup availMapW ⟨"99999999", ["11111111"]⟩ := by
  have h := processGroup_first_available_backup availMapW "99999999"
    ["00000000", "11111111", "22222222"] (by decide)
  exact ⟨h.1, h.2 "11111111" ["22222222"] (by decide)⟩

/-- C10: every substitution record produced by `performProductSelection`
carries reason OUT_OF_STOCK when the availability map resolves a record for
the original (primary) identifier, and PRIMARY_UNUSABLE when it resolves
none. -/
theorem performProductSelection_substitution_reason
    (backups : List BackupGroup) (m : JsMap ProductAvailability) :
    ∀ u ∈ (performProductSelection backups m).backupProductsUsed,
      ((getAvailability m u.originalId).isSome = true →
          u.reason = SubstitutionReason.OUT_OF_STOCK)
        ∧ (getAvailability m u.originalId = none →
            u.reason = SubstitutionReason.PRIMARY_UNUSABLE) := by
  intro u hu
  rw [performProductSelection_eq] at hu
  simp only [List.mem_flatten, List.mem_map] at hu
  obtain ⟨_, ⟨g, hg, rfl⟩, hmem⟩ := hu
  by_cases hp : isProductAvailable (getAvailability m g.primaryId) = true
  · obtain ⟨a, ha⟩ := isProductAvailable_isSome _ hp
    rw [processGroup_of_usable m g a ha (ha ▸ hp)] at hmem
    simp at hmem
  · rw [processGroup_of_not_usable m g (by simpa using hp)] at hmem
    cases hf : findAvailableBackup m g.backupIds with
    | none => rw [hf] at hmem; simp at hmem
    | some hit =>
      rw [hf] at hmem
      simp at hmem
      subst hmem
      constructor
      · intro hs; simp [hs]
      · intro hnone; simp [hnone]

/-- Witness for C10 at a concrete run producing one substitution whose primary
has no resolvable record. -/
theorem performProductSelection_substitution_reason_witness :
    ((getAvailability availMapW
          ("00000000" : String)).isSome = true →
        (⟨"00000000", "11111111", SubstitutionReason.PRIMARY_UNUSABLE⟩ :
            BackupProductUsed).reason = SubstitutionReason.OUT_OF_STOCK)
      ∧ (getAvailability availMapW ("00000000" : String) = none →
          (⟨"00000000", "11111111", SubstitutionReason.PRIMARY_UNUSABLE⟩ :
              BackupProductUsed).reason = SubstitutionReason.PRIMARY_UNUSABLE) :=
  performProductSelection_substitution_reason
    [⟨"00000000", ["11111111"]⟩] availMapW
    ⟨"00000000", "11111111", SubstitutionReason.PRIMARY_UNUSABLE⟩ (by decide)

theorem stringDataEq (a b : String) (h : a.data = b.data) : a = b := by
  cases a; cases b; exact congrArg String.mk h

theorem append_sep_inj {α : Type} (c : α) :
    ∀ (a b u v : List α), c ∉ a → c ∉ b → a ++ c :: u = b ++ c :: v →
      a = b ∧ u = v := by
  intro a
  induction a with
  | nil =>
    intro b u v _ hb h
    cases b with
    | nil => simpa using h
    | cons y bs =>
      simp only [List.nil_append, List.cons_append, List.cons.injEq] at h
      exact absurd (h.1 ▸ List.mem_cons_self y bs) hb
  | cons x as ih =>
    intro b u v ha hb h
    cases b with
    | nil =>
      simp only [List.nil_append, List.cons_append, List.cons.injEq] at h
      exact absurd (h.1 ▸ List.mem_cons_self x as) ha
    | cons y bs =>
      simp only [List.cons_append, List.cons.injEq] at h
      obtain ⟨rfl, h2⟩ := h
      obtain ⟨hab, huv⟩ := ih bs u v (fun hc => ha (List.mem_cons_of_mem _ hc))
        (fun hc => hb (List.mem_cons_of_mem _ hc)) h2
      exact ⟨by rw [hab], huv⟩

theorem generateProductStockCacheKey_data (z t : String) (s : Option String) :
    (generateProductStockCacheKey z t s).data =
      "stock:".data
        ++ (z.data ++ ':' :: ((jsOrString s "undefined").data ++ ':' :: t.data)) := by
  have hcolon : (":" : String).data = [':'] := rfl
  simp [generateProductStockCacheKey, String.data_append, hcolon,
    List.append_assoc]

theorem jsOrString_eq_fallbackTargetSpec (customUrl : Option String)
    (longLink : String) :
    jsOrString customUrl longLink = fallbackTargetSpec longLink customUrl := by
  cases customUrl with
  | none => rfl
  | some c => by_cases hc : c = "" <;> simp [jsOrString, fallbackTargetSpec, hc]

/-- C4: in every response assembled by `selectAvailableProducts`,
`cartOptionsSummary.fallbackApplied` is true exactly when `cartUrlType` is not
pdp. -/
theorem selectAvailableProducts_fallbackApplied
    (request : SmartSelectionRequest) (m : JsMap ProductAvailability) :
    (selectAvailableProducts request m).cartOptionsSummary.fallbackApplied
        = true
      ↔ (selectAvailableProducts request m).cartUrlType ≠ CartUrlType.pdp := by
  simp [selectAvailableProducts]

/-- C3 counterexample: with no product selected and a custom url that is
present but empty, the code falls back to the long link with type longLink,
while the claim as stated demands the present custom url with type custom. -/
theorem buildRedirectUrl_counterexample :
    determineCartUrlType ⟨[], [], []⟩ (some "") none ≠ CartUrlType.custom
      ∧ buildRedirectUrl ⟨[], [], []⟩ "https://www.target.com/original"
          (some "") none ≠ "" := by
  decide

/-- C3 as amended: `buildRedirectUrl` and `determineCartUrlType` follow the
claimed rules with "present" strengthened to "present and non-empty": no
selection falls back to the custom url when present and non-empty else the
long link (type custom or longLink accordingly); exactly one selection with
`allowPdp` not explicitly false yields that identifier's product page (type
pdp); any other case falls back exactly as the empty case. -/
theorem buildRedirectUrl_matches_spec (selectionResult : ProductSelectionResult)
    (longLink : String) (customUrl : Option String) (allowPdp : Option Bool) :
    buildRedirectUrl selectionResult longLink customUrl allowPdp
        = redirectTargetSpec selectionResult longLink customUrl allowPdp
      ∧ determineCartUrlType selectionResult customUrl allowPdp
        = cartUrlTypeSpec selectionResult customUrl allowPdp := by
  obtain ⟨selList, used, unav⟩ := selectionResult
  constructor
  · cases selList with
    | nil =>
      simp [buildRedirectUrl, redirectTargetSpec, jsOrString_eq_fallbackTargetSpec]
    | cons p rest =>
      cases rest with
      | nil =>
        by_cases hA : allowPdp = some false
        · subst hA
          simp [buildRedirectUrl, redirectTargetSpec,
            jsOrString_eq_fallbackTargetSpec]
        · simp [buildRedirectUrl, redirectTargetSpec, hA]
      | cons q rest2 =>
        simp [buildRedirectUrl, redirectTargetSpec,
          jsOrString_eq_fallbackTargetSpec]
  · cases selList with
    | nil =>
      cases customUrl with
      | none => simp [determineCartUrlType, cartUrlTypeSpec, fallbackTypeSpec]
      | some c =>
        by_cases hc : c = "" <;>
          simp [determineCartUrlType, cartUrlTypeSpec, fallbackTypeSpec, hc]
    | cons p rest =>
      cases rest with
      | nil =>
        by_cases hA : allowPdp = some false
        · subst hA
          cases customUrl with
          | none => simp [determineCartUrlType, cartUrlTypeSpec, fallbackTypeSpec]
          | some c =>
            by_cases hc : c = "" <;>
              simp [determineCartUrlType, cartUrlTypeSpec, fallbackTypeSpec, hc]
        · simp [determineCartUrlType, cartUrlTypeSpec, hA]
      | cons q rest2 =>
        cases customUrl with
        | none => simp [determineCartUrlType, cartUrlTypeSpec, fallbackTypeSpec]
        | some c =>
          by_cases hc : c = "" <;>
            simp [determineCartUrlType, cartUrlTypeSpec, fallbackTypeSpec, hc]

/-- C7 counterexample: two location contexts that differ in storeId (one
present with the literal value "undefined", one absent) produce the same
stock cache key, so the key is not injective in (zipCode, storeId) as
claimed. -/
theorem generateProductStockCacheKey_counterexample :
    generateProductStockCacheKey "04457" "11111111" (some "undefined")
        = generateProductStockCacheKey "04457" "11111111" none
      ∧ (some "undefined" : Option String) ≠ (none : Option String) := by
  decide

/-- C7 as amended: for a fixed identifier, the stock cache key is injective in
(zipCode, storeId) provided the zip code is colon-free and the store id, when
present, is non-empty, not the sentinel string "undefined", and colon-free. -/
theorem generateProductStockCacheKey_injective
    (z1 z2 t : String) (s1 s2 : Option String)
    (hz1 : ':' ∉ z1.data) (hz2 : ':' ∉ z2.data)
    (hs1 : ∀ x, s1 = some x → x ≠ "" ∧ x ≠ "undefined" ∧ ':' ∉ x.data)
    (hs2 : ∀ x, s2 = some x → x ≠ "" ∧ x ≠ "undefined" ∧ ':' ∉ x.data)
    (heq : generateProductStockCacheKey z1 t s1
        = generateProductStockCacheKey z2 t s2) :
    z1 = z2 ∧ s1 = s2 := by
  have hd := congrArg String.data heq
  rw [generateProductStockCacheKey_data, generateProductStockCacheKey_data] at hd
  have hd2 := List.append_cancel_left hd
  have hr1 : ':' ∉ (jsOrString s1 "undefined").data := by
    cases s1 with
    | none => decide
    | some x =>
      obtain ⟨hne, -, hcol⟩ := hs1 x rfl
      simpa [jsOrString, hne] using hcol
  have hr2 : ':' ∉ (jsOrString s2 "undefined").data := by
    cases s2 with
    | none => decide
    | some x =>
      obtain ⟨hne, -, hcol⟩ := hs2 x rfl
      simpa [jsOrString, hne] using hcol
  obtain ⟨hzz, hrest⟩ := append_sep_inj ':' z1.data z2.data _ _ hz1 hz2 hd2
  obtain ⟨hrr, -⟩ := append_sep_inj ':' _ _ _ _ hr1 hr2 hrest
  have hreq : jsOrString s1 "undefined" = jsOrString s2 "undefined" :=
    stringDataEq _ _ hrr
  refine ⟨stringDataEq _ _ hzz, ?_⟩
  cases s1 with
  | none =>
    cases s2 with
    | none => rfl
    | some y =>
      obtain ⟨hne, hnu, -⟩ := hs2 y rfl
      simp [jsOrString, hne] at hreq
      exact absurd hreq.symm hnu
  | some x =>
    obtain ⟨hnex, hnux, -⟩ := hs1 x rfl
    cases s2 with
    | none =>
      simp [jsOrString, hnex] at hreq
      exact absurd hreq hnux
    | some y =>
      obtain ⟨hney, -, -⟩ := hs2 y rfl
      simp [jsOrString, hnex, hney] at hreq
      rw [hreq]

/-- Witness for the amended C7 at a concrete colon-free context with a
non-sentinel store id. -/
theorem generateProductStockCacheKey_injective_witness :
    ("04457" : String) = "04457" ∧ (some "1771" : Option String) = some "1771" :=
  generateProductStockCacheKey_injective "04457" "04457" "11111111"
    (some "1771") (some "1771") (by decide) (by decide)
    (fun x hx => by injection hx with h; subst h; exact ⟨by decide, by decide, by decide⟩)
    (fun x hx => by injection hx with h; subst h; exact ⟨by decide, by decide, by decide⟩)
    (by decide)

/-- C8: after `setAvailabilityForAllKeyTypes` stores a record for an
identifier, `getAvailability` returns that record when queried with the
original representation and, for a numeric identifier, when queried with the
canonical numeric-string form. -/
theorem getAvailability_setAvailabilityForAllKeyTypes
    (m : JsMap ProductAvailability) (productId : String)
    (availability : ProductAvailability) :
    getAvailability (setAvailabilityForAllKeyTypes m productId availability)
        productId = some availability
      ∧ (jsIsNumeric productId = true →
          getAvailability (setAvailabilityForAllKeyTypes m productId availability)
            (jsNumberToString productId) = some availability) := by
  constructor
  · unfold setAvailabilityForAllKeyTypes getAvailability
    by_cases hn : jsIsNumeric productId = true
    · simp only [hn, if_true]
      by_cases hc : jsNumberToString productId = productId
      · rw [hc, mapGet_mapSet_self]
        simp [jsOrOpt]
      · rw [mapGet_mapSet_ne _ _ _ _ (fun hh => hc hh.symm), mapGet_mapSet_self]
        simp [jsOrOpt]
    · simp only [hn, if_false, Bool.false_eq_true]
      rw [mapGet_mapSet_self]
      simp [jsOrOpt]
  · intro hn
    unfold setAvailabilityForAllKeyTypes getAvailability
    simp only [hn, if_true]
    rw [mapGet_mapSet_self]
    simp [jsOrOpt]

/-- Witness for C8 at a concrete numeric identifier with a leading zero, whose
canonical numeric-string form differs from the original. -/
theorem getAvailability_setAvailabilityForAllKeyTypes_witness :
    getAvailability (setAvailabilityForAllKeyTypes [] "0123" availW) "0123"
        = some availW
      ∧ getAvailability (setAvailabilityForAllKeyTypes [] "0123" availW)
          (jsNumberToString "0123") = some availW :=
  ⟨(getAvailability_setAvailabilityForAllKeyTypes [] "0123" availW).1,
    (getAvailability_setAvailabilityForAllKeyTypes [] "0123" availW).2 (by decide)⟩

/-- C9: a cache write through `setCachedValue` with the ttl argument omitted
stores the namespace default `stdTTL`: the entry is readable immediately and
at the default-TTL boundary, and is gone one second past it, so it is neither
immediately expired nor never-expiring. -/
theorem setCachedValue_default_ttl {T : Type} (cache : NodeCache T)
    (key : String) (value : T) (now : Nat) (h : 0 < cache.stdTTL) :
    ((setCachedValue cache key value none now).entries.head?.map
          (fun p => p.2.ttlSeconds)) = some cache.stdTTL
      ∧ getCachedValue (setCachedValue cache key value none now) key now
          = some value
      ∧ getCachedValue (setCachedValue cache key value none now) key
          (now + cache.stdTTL) = some value
      ∧ getCachedValue (setCachedValue cache key value none now) key
          (now + cache.stdTTL + 1) = none := by
  unfold setCachedValue ncSet getCachedValue ncGet
  refine ⟨rfl, ?_, ?_, ?_⟩
  · rw [List.find?_cons_of_pos _ (by simp)]
    simp
  · rw [List.find?_cons_of_pos _ (by simp)]
    simp
  · rw [List.find?_cons_of_pos _ (by simp)]
    simp only [Option.getD]
    rw [if_neg]
    push_neg
    exact ⟨Nat.pos_iff_ne_zero.mp h, by omega⟩

/-- Witness for C9 on the stock cache instance with its default 300-second
TTL. -/
theorem setCachedValue_default_ttl_witness :
    ((setCachedValue stockCache "stock:04457:undefined:11111111" stockRespW
            none 0).entries.head?.map (fun p => p.2.ttlSeconds))
        = some stockCache.stdTTL
      ∧ getCachedValue (setCachedValue stockCache
            "stock:04457:undefined:11111111" stockRespW none 0)
          "stock:04457:undefined:11111111" 0 = some stockRespW
      ∧ getCachedValue (setCachedValue stockCache
            "stock:04457:undefined:11111111" stockRespW none 0)
          "stock:04457:undefined:11111111" (0 + stockCache.stdTTL)
          = some stockRespW
      ∧ getCachedValue (setCachedValue stockCache
            "stock:04457:undefined:11111111" stockRespW none 0)
          "stock:04457:undefined:11111111" (0 + stockCache.stdTTL + 1) = none :=
  setCachedValue_default_ttl stockCache "stock:04457:undefined:11111111"
    stockRespW 0 (by decide)

theorem jsOrOpt_self_canon {V : Type} (m : JsMap V) (k : String)
    (hk : jsNumberToString k = k) :
    jsOrOpt (mapGet m k) (jsOrOpt (mapGet m k) (mapGet m (jsNumberToString k)))
      = mapGet m k := by
  rw [hk]
  cases mapGet m k <;> simp [jsOrOpt]

theorem getAvailability_eq_mapGet (m : JsMap ProductAvailability) (k : String)
    (hk : jsNumberToString k = k) : getAvailability m k = mapGet m k := by
  unfold getAvailability
  exact jsOrOpt_self_canon m k hk

theorem availabilityForProduct_congr (S S' : JsMap TargetStoreStockResponse)
    (storeId : Option String) (k : String) (hk : jsNumberToString k = k)
    (h : mapGet S k = mapGet S' k) :
    availabilityForProduct S storeId k = availabilityForProduct S' storeId k := by
  unfold availabilityForProduct
  rw [jsOrOpt_self_canon S k hk, jsOrOpt_self_canon S' k hk, h]

theorem availabilityForProduct_no_data (S : JsMap TargetStoreStockResponse)
    (storeId : Option String) (k : String) (hk : jsNumberToString k = k)
    (h : mapGet S k = none) :
    availabilityForProduct S storeId k =
      (⟨k, false, 0, none, none, none, none, none⟩,
        some ⟨k, "No stock data available", some (.str "NO_STOCK_DATA")⟩) := by
  unfold availabilityForProduct
  rw [jsOrOpt_self_canon S k hk, h]

theorem setAll_canonical (m : JsMap ProductAvailability) (id : String)
    (a : ProductAvailability) (hid : canonicalId id) :
    setAvailabilityForAllKeyTypes m id a
      = mapSet (mapSet (mapSet m id a) id a) id a := by
  unfold setAvailabilityForAllKeyTypes
  simp only [hid.1, if_true, hid.2]

theorem mapGet_setAll_ne (m : JsMap ProductAvailability) (id k : String)
    (a : ProductAvailability) (hid : canonicalId id) (hk : k ≠ id) :
    mapGet (setAvailabilityForAllKeyTypes m id a) k = mapGet m k := by
  rw [setAll_canonical m id a hid, mapGet_mapSet_ne _ _ _ _ hk,
    mapGet_mapSet_ne _ _ _ _ hk, mapGet_mapSet_ne _ _ _ _ hk]

theorem mapGet_setAll_self (m : JsMap ProductAvailability) (id : String)
    (a : ProductAvailability) (hid : canonicalId id) :
    mapGet (setAvailabilityForAllKeyTypes m id a) id = some a := by
  rw [setAll_canonical m id a hid, mapGet_mapSet_self]

theorem batch_foldl_errors (S : JsMap TargetStoreStockResponse)
    (st : Option String) (ids : List String) :
    ∀ acc : JsMap ProductAvailability × List ProductError,
      (ids.foldl (batchStep S st) acc).2
        = acc.2 ++ ids.filterMap (fun id => (availabilityForProduct S st id).2) := by
  induction ids with
  | nil => intro acc; simp
  | cons id rest ih =>
    intro acc
    rw [List.foldl_cons, ih]
    simp only [batchStep, List.filterMap_cons]
    cases (availabilityForProduct S st id).2 <;> simp

theorem batch_foldl_untouched (S : JsMap TargetStoreStockResponse)
    (st : Option String) (ids : List String) :
    ∀ (acc : JsMap ProductAvailability × List ProductError) (k : String),
      (∀ id ∈ ids, canonicalId id) → k ∉ ids →
        mapGet (ids.foldl (batchStep S st) acc).1 k = mapGet acc.1 k := by
  induction ids with
  | nil => intro acc k _ _; rfl
  | cons id rest ih =>
    intro acc k hc hk
    simp only [List.mem_cons, not_or] at hk
    rw [List.foldl_cons,
      ih _ k (fun x hx => hc x (List.mem_cons_of_mem _ hx)) hk.2]
    simp only [batchStep]
    exact mapGet_setAll_ne _ _ _ _ (hc id (List.mem_cons_self _ _)) hk.1

theorem batch_foldl_mem (S : JsMap TargetStoreStockResponse)
    (st : Option String) (ids : List String) :
    ∀ (acc : JsMap ProductAvailability × List ProductError) (g : String),
      (∀ id ∈ ids, canonicalId id) → ids.Nodup → g ∈ ids →
        mapGet (ids.foldl (batchStep S st) acc).1 g
          = some (availabilityForProduct S st g).1 := by
  induction ids with
  | nil => intro acc g _ _ hg; simp at hg
  | cons id rest ih =>
    intro acc g hc hnd hg
    rw [List.foldl_cons]
    rcases List.mem_cons.mp hg with rfl | hg'
    · have hnotin : g ∉ rest := (List.nodup_cons.mp hnd).1
      rw [batch_foldl_untouched S st rest _ g
        (fun x hx => hc x (List.mem_cons_of_mem _ hx)) hnotin]
      simp only [batchStep]
      exact mapGet_setAll_self _ _ _ (hc g (List.mem_cons_self _ _))
    · exact ih _ g (fun x hx => hc x (List.mem_cons_of_mem _ hx))
        (List.nodup_cons.mp hnd).2 hg'

theorem mapGet_bulkStep_ne (acc : JsMap TargetStoreStockResponse)
    (p : String × Except ApiError TargetStoreStockResponse) (k : String)
    (hp : canonicalId p.1) (hk : k ≠ p.1) :
    mapGet (bulkStep acc p) k = mapGet acc k := by
  obtain ⟨t, o⟩ := p
  cases o with
  | error e => rfl
  | ok r =>
    simp only [bulkStep, hp.1, if_true, hp.2]
    rw [mapGet_mapSet_ne _ _ _ _ hk, mapGet_mapSet_ne _ _ _ _ hk,
      mapGet_mapSet_ne _ _ _ _ hk]

theorem mapGet_bulkStep_self (acc : JsMap TargetStoreStockResponse)
    (t : String) (r : TargetStoreStockResponse) (hp : canonicalId t) :
    mapGet (bulkStep acc (t, .ok r)) t = some r := by
  simp only [bulkStep, hp.1, if_true, hp.2]
  exact mapGet_mapSet_self _ _ _

theorem bulk_foldl_untouched :
    ∀ (pairs : List (String × Except ApiError TargetStoreStockResponse))
      (acc : JsMap TargetStoreStockResponse) (k : String),
      (∀ p ∈ pairs, canonicalId p.1) → (∀ p ∈ pairs, k ≠ p.1) →
        mapGet (pairs.foldl bulkStep acc) k = mapGet acc k := by
  intro pairs
  induction pairs with
  | nil => intro acc k _ _; rfl
  | cons p rest ih =>
    intro acc k hc hk
    rw [List.foldl_cons,
      ih _ k (fun x hx => hc x (List.mem_cons_of_mem _ hx))
        (fun x hx => hk x (List.mem_cons_of_mem _ hx))]
    exact mapGet_bulkStep_ne _ _ _ (hc p (List.mem_cons_self _ _))
      (hk p (List.mem_cons_self _ _))

theorem bulk_foldl_mem :
    ∀ (pairs : List (String × Except ApiError TargetStoreStockResponse))
      (acc : JsMap TargetStoreStockResponse) (g : String)
      (out : Except ApiError TargetStoreStockResponse),
      (∀ p ∈ pairs, canonicalId p.1) → (pairs.map Prod.fst).Nodup →
      (g, out) ∈ pairs →
        mapGet (pairs.foldl bulkStep acc) g
          = (match out with
              | .ok r => some r
              | .error _ => mapGet acc g) := by
  intro pairs
  induction pairs with
  | nil => intro acc g out _ _ hg; simp at hg
  | cons p rest ih =>
    intro acc g out hc hnd hg
    rw [List.foldl_cons]
    rcases List.mem_cons.mp hg with heq | hg'
    · cases heq
      have hnotin : ∀ q ∈ rest, g ≠ q.1 := by
        intro q hq hgq
        have : g ∈ rest.map Prod.fst := List.mem_map.mpr ⟨q, hq, hgq.symm⟩
        exact (List.nodup_cons.mp (by simpa using hnd)).1 this
      rw [bulk_foldl_untouched rest _ g
        (fun x hx => hc x (List.mem_cons_of_mem _ hx)) hnotin]
      cases out with
      | ok r => exact mapGet_bulkStep_self _ _ _ (hc _ (List.mem_cons_self _ _))
      | error e => rfl
    · have hgt : g ≠ p.1 := by
        intro hgp
        have h1 : p.1 ∉ rest.map Prod.fst :=
          (List.nodup_cons.mp (by simpa using hnd)).1
        have h2 : g ∈ rest.map Prod.fst := List.mem_map.mpr ⟨(g, out), hg', rfl⟩
        exact h1 (hgp ▸ h2)
      have := ih (bulkStep acc p) g out
        (fun x hx => hc x (List.mem_cons_of_mem _ hx))
        (List.nodup_cons.mp (by simpa using hnd)).2 hg'
      rw [this]
      cases out with
      | ok r => rfl
      | error e =>
        exact mapGet_bulkStep_ne _ _ _ (hc p (List.mem_cons_self _ _)) hgt

theorem map_fst_stock_pairs (raw : Upstream) (ids : List String) :
    (ids.map (fun t => (t, checkStoreStock raw t))).map Prod.fst = ids := by
  induction ids with
  | nil => rfl
  | cons x xs ih => simp only [List.map_cons, ih]

theorem mapGet_checkBulkStoreStock (raw : Upstream) (ids : List String)
    (g : String) (hc : ∀ id ∈ ids, canonicalId id) (hnd : ids.Nodup)
    (hg : g ∈ ids) :
    mapGet (checkBulkStoreStock raw ids) g
      = (match checkStoreStock raw g with
          | .ok r => some r
          | .error _ => none) := by
  unfold checkBulkStoreStock
  have hmem : (g, checkStoreStock raw g)
      ∈ ids.map (fun t => (t, checkStoreStock raw t)) :=
    List.mem_map.mpr ⟨g, hg, rfl⟩
  have hcp : ∀ p ∈ ids.map (fun t => (t, checkStoreStock raw t)),
      canonicalId p.1 := by
    intro p hp
    obtain ⟨t, ht, rfl⟩ := List.mem_map.mp hp
    exact hc t ht
  have hndp : ((ids.map (fun t => (t, checkStoreStock raw t))).map
      Prod.fst).Nodup := by
    rw [map_fst_stock_pairs]
    exact hnd
  rw [bulk_foldl_mem _ [] g (checkStoreStock raw g) hcp hndp hmem]
  cases checkStoreStock raw g with
  | ok r => rfl
  | error e => rfl

theorem getAvailability_checkBatchAvailabilityCore (raw : Upstream)
    (params : StockCheckParams) (g : String)
    (hc : ∀ id ∈ params.productIds, canonicalId id)
    (hnd : params.productIds.Nodup) (hg : g ∈ params.productIds) :
    getAvailability (checkBatchAvailabilityCore raw params).availabilityMap g
      = some (availabilityForProduct (checkBulkStoreStock raw params.productIds)
          params.storeId g).1 := by
  unfold checkBatchAvailabilityCore
  rw [getAvailability_eq_mapGet _ _ (hc g hg).2]
  exact batch_foldl_mem _ _ _ _ g hc hnd hg

theorem errors_checkBatchAvailabilityCore (raw : Upstream)
    (params : StockCheckParams) :
    (checkBatchAvailabilityCore raw params).errors
      = params.productIds.filterMap
          (fun id => (availabilityForProduct
              (checkBulkStoreStock raw params.productIds) params.storeId id).2) := by
  simp only [checkBatchAvailabilityCore]
  rw [batch_foldl_errors]
  simp

/-- C5: a batch where the upstream fails for one identifier still resolves
without throwing; every identifier gets an availability record, the failing
identifier resolves to the unavailable record with a NO_STOCK_DATA
per-identifier error, and the records of all other identifiers coincide with
those of the run in which that lookup succeeds instead. -/
theorem checkBatchAvailability_isolation (raw raw' : Upstream)
    (ids : List String) (zipCode : String) (storeId : Option String)
    (f : String) (e : AxiosErrorShape) (r : TargetStoreStockResponse)
    (hc : ∀ id ∈ ids, canonicalId id) (hnd : ids.Nodup) (hf : f ∈ ids)
    (hagree : ∀ g, g ≠ f → raw g = raw' g)
    (hfail : raw f = .error e) (_hok : raw' f = .ok r) :
    checkBatchAvailability raw ⟨ids, zipCode, storeId⟩
        = .ok (checkBatchAvailabilityCore raw ⟨ids, zipCode, storeId⟩)
      ∧ (∀ id ∈ ids,
          (getAvailability (checkBatchAvailabilityCore raw
              ⟨ids, zipCode, storeId⟩).availabilityMap id).isSome = true)
      ∧ getAvailability (checkBatchAvailabilityCore raw
            ⟨ids, zipCode, storeId⟩).availabilityMap f
          = some ⟨f, false, 0, none, none, none, none, none⟩
      ∧ (⟨f, "No stock data available", some (.str "NO_STOCK_DATA")⟩ :
            ProductError)
          ∈ (checkBatchAvailabilityCore raw ⟨ids, zipCode, storeId⟩).errors
      ∧ ∀ g ∈ ids, g ≠ f →
          getAvailability (checkBatchAvailabilityCore raw
              ⟨ids, zipCode, storeId⟩).availabilityMap g
            = getAvailability (checkBatchAvailabilityCore raw'
                ⟨ids, zipCode, storeId⟩).availabilityMap g := by
  have hSf : mapGet (checkBulkStoreStock raw ids) f = none := by
    rw [mapGet_checkBulkStoreStock raw ids f hc hnd hf]
    unfold checkStoreStock
    rw [hfail]
  refine ⟨rfl, ?_, ?_, ?_, ?_⟩
  · intro id hid
    rw [getAvailability_checkBatchAvailabilityCore raw _ id hc hnd hid]
    rfl
  · rw [getAvailability_checkBatchAvailabilityCore raw _ f hc hnd hf,
      availabilityForProduct_no_data _ _ f (hc f hf).2 hSf]
  · rw [errors_checkBatchAvailabilityCore]
    refine List.mem_filterMap.mpr ⟨f, hf, ?_⟩
    rw [availabilityForProduct_no_data _ _ f (hc f hf).2 hSf]
  · intro g hg hne
    rw [getAvailability_checkBatchAvailabilityCore raw _ g hc hnd hg,
      getAvailability_checkBatchAvailabilityCore raw' _ g hc hnd hg]
    have hmg : mapGet (checkBulkStoreStock raw ids) g
        = mapGet (checkBulkStoreStock raw' ids) g := by
      rw [mapGet_checkBulkStoreStock raw ids g hc hnd hg,
        mapGet_checkBulkStoreStock raw' ids g hc hnd hg]
      have hsame : checkStoreStock raw g = checkStoreStock raw' g := by
        unfold checkStoreStock
        rw [hagree g hne]
      rw [hsame]
    rw [availabilityForProduct_congr _ _ storeId g (hc g hg).2 hmg]

/-- Witness for C5: a two-identifier batch where the second lookup fails with
404 under the first upstream and succeeds under the second. -/
theorem checkBatchAvailability_isolation_witness :
    checkBatchAvailability rawFailing ⟨["11111111", "22222222"], "04457", none⟩
        = .ok (checkBatchAvailabilityCore rawFailing
            ⟨["11111111", "22222222"], "04457", none⟩)
      ∧ getAvailability (checkBatchAvailabilityCore rawFailing
            ⟨["11111111", "22222222"], "04457", none⟩).availabilityMap
          "22222222"
          = some ⟨"22222222", false, 0, none, none, none, none, none⟩
      ∧ (⟨"22222222", "No stock data available", some (.str "NO_STOCK_DATA")⟩ :
            ProductError)
          ∈ (checkBatchAvailabilityCore rawFailing
              ⟨["11111111", "22222222"], "04457", none⟩).errors
      ∧ getAvailability (checkBatchAvailabilityCore rawFailing
            ⟨["11111111", "22222222"], "04457", none⟩).availabilityMap
          "11111111"
          = getAvailability (checkBatchAvailabilityCore rawHealthy
              ⟨["11111111", "22222222"], "04457", none⟩).availabilityMap
            "11111111" := by
  have h := checkBatchAvailability_isolation rawFailing rawHealthy
    ["11111111", "22222222"] "04457" none "22222222" notFoundAxiosError
    stockRespW (by decide) (by decide) (by decide)
    (fun g hg => by unfold rawFailing rawHealthy; rw [if_neg hg])
    (by unfold rawFailing; rw [if_pos rfl]) rfl
  exact ⟨h.1, h.2.2.1, h.2.2.2.1, h.2.2.2.2 "11111111" (by decide) (by decide)⟩

/-- C6 evaluation: a rate-limited upstream failure is mapped by
`handleApiError` to the distinguishable code RATE_LIMIT_EXCEEDED, but the
per-identifier error recorded by the batch availability check for that
identifier carries the generic code NO_STOCK_DATA, because
`checkBulkStoreStock` drops the caught `ApiError` and only the absence of
stock data is observed downstream. -/
theorem rateLimited_error_code_lost :
    (handleApiError rateLimitedAxiosError (some "TCIN 33333333")).code
        = ErrCode.str "RATE_LIMIT_EXCEEDED"
      ∧ (checkBatchAvailabilityCore rawRateLimited
            ⟨["33333333"], "04457", none⟩).errors
          = [⟨"33333333", "No stock data available",
              some (.str "NO_STOCK_DATA")⟩] := by
  constructor
  · decide
  · decide
